import Mathlib

/-!
# Verification of the YouTubeUploader job-processing pipeline

Shallow embedding of the upload scheduling and job-processing pipeline of
the repository, which ships two variants of the program:

* `src/main.py` — the current variant: a per-job `try/except/finally`
  around the job body, an `os.remove` guarded by `except OSError`, a
  two-tier download fallback, the `YTUPLOADER` provenance tag logic, and a
  Discord summary notification after the batch.
* `src/yotuubeuploader.py` — the legacy variant: same loop shape but with
  no per-job exception boundary, no `finally` cleanup, no provenance tag
  logic, no summary notification, and a title-rewriting step
  (`" (Re-upload)"` suffix with truncation to 100 characters).

Timestamps are modelled as natural numbers of microseconds since an epoch
whose day 0 is a Monday, matching Python's `datetime.weekday()` convention
(Monday = 0).  Naive `datetime` arithmetic (`+ timedelta(days=d)`,
`.replace(hour, minute, second=0, microsecond=0)`) is exact arithmetic on
that representation.  The filesystem is modelled as the list of paths that
currently exist.  The observable outcome of each external call
(`subprocess.run` of yt-dlp, the YouTube API upload, `os.remove`) is
supplied by an oracle, so every theorem quantifies over all behaviours of
the external world.
-/

/-- microseconds per day, the resolution of Python naive datetimes. -/
def usPerDay : Nat := 86400000000

/-- Python `datetime.weekday()` of a timestamp: the model's epoch day 0 is a Monday,
so Monday = 0 … Sunday = 6, as in Python. -/
def weekday (t : Nat) : Nat := (t / usPerDay) % 7

/-- Python `datetime.time()` of a timestamp: microseconds since local midnight. -/
def timeOfDay (t : Nat) : Nat := t % usPerDay

/-- The time-of-day value `datetime.time(hour, minute)` in microseconds. -/
def hmMicros (hour minute : Nat) : Nat := (hour * 3600 + minute * 60) * 1000000

/-- Embeds `SchedulingDialog._calculate_start_datetime_from_preset` (identical in
`src/main.py` lines 871-889 and `src/yotuubeuploader.py` lines 704-719):

    days_until_target = (target_weekday - now.weekday() + 7) % 7
    first_schedule_date = now + datetime.timedelta(days=days_until_target)
    if days_until_target == 0 and now.time() > datetime.time(hour, minute):
        first_schedule_date += datetime.timedelta(days=7)
    return first_schedule_date.replace(hour=.., minute=.., second=0, microsecond=0)

Python's `%` on these operands is non-negative, so the Nat form
`(start_day + 7 - weekday now) % 7` is the same value. -/
def calculate_start_datetime_from_preset (start_day hour minute now : Nat) : Nat :=
  let days_until_target := (start_day + 7 - weekday now) % 7
  let first_schedule_date := now + days_until_target * usPerDay
  let adjusted :=
    if days_until_target = 0 ∧ hmMicros hour minute < timeOfDay now then
      first_schedule_date + 7 * usPerDay
    else
      first_schedule_date
  (adjusted / usPerDay) * usPerDay + hmMicros hour minute

/-- A job submitted to the worker: the dicts built at `src/main.py` lines
1196-1203 (type `re-upload`) and line 1162 (type `local`), and the same in
the legacy file. -/
inductive Job where
  | reUpload (source_id title description : String)
  | localJob (source_path title description : String)
  deriving DecidableEq

/-- The `title` entry of a job dict. -/
def Job.title : Job → String
  | .reUpload _ t _ => t
  | .localJob _ t _ => t

/-- The `description` entry of a job dict. -/
def Job.description : Job → String
  | .reUpload _ _ d => d
  | .localJob _ _ d => d

/-- Whether `job['type'] == 're-upload'`. -/
def Job.isReUpload : Job → Bool
  | .reUpload .. => true
  | .localJob .. => false

/-- Whether `job['type'] == 'local'`. -/
def Job.isLocal : Job → Bool
  | .reUpload .. => false
  | .localJob .. => true

/-- The schedule plan produced by `SchedulingDialog.on_ok`:
`{'start_datetime': …, 'interval': …}`, as microsecond values. -/
structure SchedulePlan where
  start_datetime : Int
  interval : Int
  deriving DecidableEq

/-- The publish timestamp the worker computes for the job at zero-based
index `i`: `schedule_plan['start_datetime'] + (i * schedule_plan['interval'])`
(`src/main.py` line 1244, `src/yotuubeuploader.py` line 1037). -/
def slotTime (plan : SchedulePlan) (i : Nat) : Int :=
  plan.start_datetime + (i : Int) * plan.interval

/-- A message placed on `self.task_queue` by the worker. -/
inductive BatchEvent where
  | statusUpdate (msg : String)
  | progressUpdate (percent : ℚ)
  | uploadComplete
  deriving DecidableEq

/-- The `PROGRESS_UPDATE` value for job index `i` of `n`:
`((i + 1) / total_videos) * 100`. -/
def progressValue (n i : Nat) : ℚ := ((i + 1 : ℚ) / (n : ℚ)) * 100

/-- The observable outcome of a fallible external call made by the worker:
either the Python function returned a value (`ret`), or it raised an
exception that the function itself did not catch (`raise`). -/
inductive CallOutcome where
  | ret (r : Option String)
  | raise (e : String)
  deriving DecidableEq

/-- Behaviour of the external world during one job of the current
(`src/main.py`) worker:

* `download` — outcome of `download_video(job['source_id'])`.  That function
  returns a path or `None`; it can also itself raise (its first `try` only
  catches `subprocess.CalledProcessError`, so e.g. a `FileNotFoundError`
  when `yt-dlp` is not installed propagates).
* `upload` — outcome of `upload_video(...)`.  It catches `HttpError` and
  returns `None` for it; any other exception (e.g. from `MediaFileUpload`
  or a transport error) propagates.
* `removeFails` — whether `os.remove` raises `OSError` (caught at
  `src/main.py` lines 1266-1270; the file then remains). -/
structure MainJobOracle where
  download : CallOutcome
  upload : CallOutcome
  removeFails : Bool

/-- One invocation of `upload_video` recorded with the arguments the worker
passed: the media path, the title, the description, the tag list, and the
computed publish timestamp. -/
structure UploadCall where
  file_path : String
  title : String
  description : String
  tags : List String
  publish_at : Int
  deriving DecidableEq

/-- Result of processing one job in the current worker: the queue messages
it emitted, the entry appended to `successful_uploads` (if any), the
`upload_video` invocations it made, and the filesystem afterwards. -/
structure JobResult where
  events : List BatchEvent
  outcome : Option (String × String)
  calls : List UploadCall
  fs : List String
  deriving DecidableEq

/-- Steps 3-6 of the current worker's job body, entered once a truthy
`video_path` is in hand (`src/main.py` lines 1243-1274): the `Scheduling`
and `Uploading` status messages, the publish-time computation, the
`upload_video` call, the `successful_uploads` append guarded by the
truthiness of `upload_id`, the `finally` cleanup, and the progress message.
`isRe` is `job['type'] == 're-upload'`. -/
def mainAfterSource (o : MainJobOracle) (plan : SchedulePlan) (n i : Nat)
    (isRe : Bool) (p title descr : String) (evs : List BatchEvent)
    (fs : List String) : JobResult :=
  let schedEvent := BatchEvent.statusUpdate
    ("Scheduling video " ++ toString (i + 1) ++ "/" ++ toString n ++ "...")
  let upEvent := BatchEvent.statusUpdate
    ("Uploading video " ++ toString (i + 1) ++ "/" ++ toString n ++ "...")
  let call : UploadCall :=
    { file_path := p, title := title, description := descr,
      tags := ["shorts", "your-custom-tag"], publish_at := slotTime plan i }
  let outcome := match o.upload with
    | .ret (some id) => if id = "" then none else some (title, id)
    | _ => none
  let fs2 :=
    if isRe = true ∧ p ≠ "" ∧ p ∈ fs then
      (if o.removeFails then fs else fs.filter (fun q => q ≠ p))
    else fs
  { events := evs ++ [schedEvent, upEvent, BatchEvent.progressUpdate (progressValue n i)],
    outcome := outcome, calls := [call], fs := fs2 }

/-- The body of the current worker's `for` loop for the job at index `i`
of `n` (`src/main.py` lines 1226-1274).  Control flow as in the source:

* re-upload: `Downloading:` status, then `download_video`.  A raised
  exception is caught by the per-job `except`; `video_path` is still
  `None`, the `finally` deletes nothing, and the progress message IS
  emitted.  A `None` (or falsy `""`) result takes the
  `if not video_path: ... continue` path: the `finally` runs (deleting
  nothing, the path being falsy) and `continue` SKIPS the progress message.
  A truthy path proceeds to `mainAfterSource`; the downloaded file now
  exists, so it is inserted into the filesystem.
* local: `Preparing:` status, `video_path = job['source_path']`, same
  truthiness check, no filesystem change. -/
def process_one_job (o : MainJobOracle) (plan : SchedulePlan) (n i : Nat)
    (job : Job) (fs : List String) : JobResult :=
  match job with
  | .reUpload _ title descr =>
    let dlEvent := BatchEvent.statusUpdate ("Downloading: " ++ title.take 30 ++ "...")
    match o.download with
    | .raise _ =>
      { events := [dlEvent, BatchEvent.progressUpdate (progressValue n i)],
        outcome := none, calls := [], fs := fs }
    | .ret none =>
      { events := [dlEvent], outcome := none, calls := [], fs := fs }
    | .ret (some p) =>
      let fs1 := fs.insert p
      if p = "" then
        { events := [dlEvent], outcome := none, calls := [], fs := fs1 }
      else
        mainAfterSource o plan n i true p title descr [dlEvent] fs1
  | .localJob spath title descr =>
    let prepEvent := BatchEvent.statusUpdate ("Preparing: " ++ title.take 30 ++ "...")
    if spath = "" then
      { events := [prepEvent], outcome := none, calls := [], fs := fs }
    else
      mainAfterSource o plan n i false spath title descr [prepEvent] fs

/-- Accumulated result of a whole batch run. -/
structure BatchAccum where
  events : List BatchEvent
  successes : List (String × String)
  calls : List UploadCall
  fs : List String
  processed : Nat
  deriving DecidableEq

/-- The current worker's `for i, job in enumerate(upload_jobs)` loop,
threading the filesystem from job to job.  Every job body is wrapped in
`try/except Exception/finally`, so the recursion always continues to the
next job; `processed` counts the jobs whose body was entered. -/
def run_jobs (os : Nat → MainJobOracle) (plan : SchedulePlan) (n : Nat) :
    List Job → Nat → List String → BatchAccum
  | [], _, fs => { events := [], successes := [], calls := [], fs := fs, processed := 0 }
  | job :: rest, i, fs =>
    let r := process_one_job (os i) plan n i job fs
    let acc := run_jobs os plan n rest (i + 1) r.fs
    { events := r.events ++ acc.events,
      successes := (match r.outcome with
        | some s => s :: acc.successes
        | none => acc.successes),
      calls := r.calls ++ acc.calls,
      fs := acc.fs,
      processed := acc.processed + 1 }

/-- The lines of the Discord summary built at `src/main.py` lines
1278-1283: two header lines then one line per successful upload containing
the title and the constructed watch URL. -/
def discordLines (succs : List (String × String)) : List String :=
  [" **Upload Batch Complete!**", "\nSuccessfully scheduled the following videos:\n"] ++
    succs.map (fun s => "- [" ++ s.1 ++ "](https://www.youtube.com/watch?v=" ++ s.2 ++ ")")

/-- The full result of one batch: the queue messages in order, the
`successful_uploads` list, all `upload_video` invocations, the final
filesystem, how many job bodies ran, and the summary handed to
`send_discord_notification` (if any). -/
structure RunResult where
  events : List BatchEvent
  successes : List (String × String)
  calls : List UploadCall
  fs : List String
  processed : Nat
  notification : Option String
  deriving DecidableEq

/-- Embeds `YouTubeUploaderGUI.worker_upload_videos` of `src/main.py` (lines
1218-1286): initial status and progress messages, the job loop, the
Discord summary sent only when `successful_uploads` is non-empty, and the
unconditional final `UPLOAD_COMPLETE` message. -/
def worker_upload_videos (os : Nat → MainJobOracle) (plan : SchedulePlan)
    (jobs : List Job) (fs : List String) : RunResult :=
  let n := jobs.length
  let acc := run_jobs os plan n jobs 0 fs
  { events :=
      [BatchEvent.statusUpdate ("Starting upload of " ++ toString n ++ " videos..."),
       BatchEvent.progressUpdate 0] ++ acc.events ++ [BatchEvent.uploadComplete],
    successes := acc.successes,
    calls := acc.calls,
    fs := acc.fs,
    processed := acc.processed,
    notification :=
      if acc.successes = [] then none
      else some (String.intercalate "\n" (discordLines acc.successes)) }

/-- The tag list actually sent by `upload_video` of `src/main.py` (lines
282-293): `final_tags = list(tags) if tags else []`, then `"YTUPLOADER"`
is appended only when not already present. -/
def upload_video_final_tags (tags : List String) : List String :=
  if "YTUPLOADER" ∈ tags then tags else tags ++ ["YTUPLOADER"]

/-- The tag list sent by `upload_video` of `src/yotuubeuploader.py` (line
207): the caller's `tags` are placed in the request body verbatim; no
provenance tag is added. -/
def legacy_upload_tags (tags : List String) : List String := tags

/-- The title rewriting in the legacy worker (`src/yotuubeuploader.py`
lines 1042-1047): append `" (Re-upload)"`, truncating the base title with
a trailing `"..."` when the combination would exceed 100 characters. -/
def legacy_new_title (title : String) : String :=
  let suffix := " (Re-upload)"
  let available_len := 100 - suffix.length
  let base_title :=
    if available_len < title.length then title.take (available_len - 3) ++ "..."
    else title
  base_title ++ suffix

/-- Behaviour of the external world during one job of the legacy
(`src/yotuubeuploader.py`) worker:

* `download` — result of the legacy `download_video`, which catches every
  exception and returns a path or `None` (it never raises).
* `upload` — outcome of the legacy `upload_video`: `HttpError` is caught
  inside (returning `None`); any other exception propagates, and the
  legacy loop has no per-job `except`, so it aborts the batch.
* `removeRaises` — whether `os.remove` raises; the legacy cleanup has no
  exception handling, so this too aborts the batch. -/
structure LegacyJobOracle where
  download : Option String
  upload : CallOutcome
  removeRaises : Bool

/-- Result of one legacy job: queue messages, `upload_video` invocations,
the filesystem afterwards, and whether an uncaught exception escaped the
job body (aborting the whole batch loop). -/
structure LegacyJobResult where
  events : List BatchEvent
  calls : List UploadCall
  fs : List String
  raised : Bool
  deriving DecidableEq

/-- The tail of the legacy job body once a truthy `video_path` is in hand
(`src/yotuubeuploader.py` lines 1036-1059): `Scheduling` status, publish
time, title rewrite, `Uploading` status, `upload_video` (whose result is
ignored — the legacy worker keeps no success list), the unguarded cleanup
`if job['type'] == 're-upload' and os.path.exists(video_path): os.remove`,
and the progress message. -/
def legacyAfterSource (o : LegacyJobOracle) (plan : SchedulePlan) (n i : Nat)
    (isRe : Bool) (p title descr : String) (evs : List BatchEvent)
    (fs : List String) : LegacyJobResult :=
  let schedEvent := BatchEvent.statusUpdate
    ("Scheduling video " ++ toString (i + 1) ++ "/" ++ toString n ++ "...")
  let upEvent := BatchEvent.statusUpdate
    ("Uploading video " ++ toString (i + 1) ++ "/" ++ toString n ++ "...")
  let call : UploadCall :=
    { file_path := p, title := legacy_new_title title, description := descr,
      tags := ["shorts", "your-custom-tag"], publish_at := slotTime plan i }
  match o.upload with
  | .raise _ =>
    { events := evs ++ [schedEvent, upEvent], calls := [call], fs := fs, raised := true }
  | .ret _ =>
    if isRe = true ∧ p ∈ fs then
      (if o.removeRaises then
        { events := evs ++ [schedEvent, upEvent], calls := [call], fs := fs, raised := true }
      else
        { events := evs ++ [schedEvent, upEvent, BatchEvent.progressUpdate (progressValue n i)],
          calls := [call], fs := fs.filter (fun q => q ≠ p), raised := false })
    else
      { events := evs ++ [schedEvent, upEvent, BatchEvent.progressUpdate (progressValue n i)],
        calls := [call], fs := fs, raised := false }

/-- The body of the legacy worker's loop for the job at index `i` of `n`
(`src/yotuubeuploader.py` lines 1023-1059).  Re-upload jobs emit a
`Downloading video i+1/n: ...` status; local jobs emit no status before
the truthiness check.  `if not video_path: continue` skips the progress
message exactly as in the current worker. -/
def legacy_process_one_job (o : LegacyJobOracle) (plan : SchedulePlan) (n i : Nat)
    (job : Job) (fs : List String) : LegacyJobResult :=
  match job with
  | .reUpload _ title descr =>
    let dlEvent := BatchEvent.statusUpdate
      ("Downloading video " ++ toString (i + 1) ++ "/" ++ toString n ++ ": " ++
        title.take 30 ++ "...")
    match o.download with
    | none =>
      { events := [dlEvent], calls := [], fs := fs, raised := false }
    | some p =>
      let fs1 := fs.insert p
      if p = "" then
        { events := [dlEvent], calls := [], fs := fs1, raised := false }
      else
        legacyAfterSource o plan n i true p title descr [dlEvent] fs1
  | .localJob spath title descr =>
    if spath = "" then
      { events := [], calls := [], fs := fs, raised := false }
    else
      legacyAfterSource o plan n i false spath title descr [] fs

/-- The legacy worker's loop.  There is no per-job exception boundary: as
soon as one job's body raises, the loop (and the worker function) is
abandoned; the remaining jobs are never entered and the terminal
`UPLOAD_COMPLETE` is never reached.  The Bool result records whether the
loop ran to completion. -/
def legacy_run_jobs (os : Nat → LegacyJobOracle) (plan : SchedulePlan) (n : Nat) :
    List Job → Nat → List String →
      List BatchEvent × List UploadCall × List String × Nat × Bool
  | [], _, fs => ([], [], fs, 0, true)
  | job :: rest, i, fs =>
    let r := legacy_process_one_job (os i) plan n i job fs
    if r.raised then (r.events, r.calls, r.fs, 1, false)
    else
      let acc := legacy_run_jobs os plan n rest (i + 1) r.fs
      (r.events ++ acc.1, r.calls ++ acc.2.1, acc.2.2.1, acc.2.2.2.1 + 1, acc.2.2.2.2)

/-- Embeds `YouTubeUploaderGUI.worker_upload_videos` of `src/yotuubeuploader.py`
(lines 1017-1061): initial status and progress messages, the loop, and the
final `UPLOAD_COMPLETE` — reached only when no job raised.  The legacy
worker keeps no success list and sends no summary notification
(`notification` is always `none`: the file contains no Discord call). -/
def legacy_worker_upload_videos (os : Nat → LegacyJobOracle) (plan : SchedulePlan)
    (jobs : List Job) (fs : List String) : RunResult :=
  let n := jobs.length
  let acc := legacy_run_jobs os plan n jobs 0 fs
  { events :=
      [BatchEvent.statusUpdate ("Starting upload of " ++ toString n ++ " videos..."),
       BatchEvent.progressUpdate 0] ++ acc.1 ++
        (if acc.2.2.2.2 then [BatchEvent.uploadComplete] else []),
    successes := [],
    calls := acc.2.1,
    fs := acc.2.2.1,
    processed := acc.2.2.2.1,
    notification := none }

/-- Outcome of the first `subprocess.run` of yt-dlp in the current
`download_video` (`src/main.py` lines 230-232): it either succeeds, raises
`subprocess.CalledProcessError` (the only exception that `except` clause
catches), or raises something else (e.g. `FileNotFoundError` when yt-dlp
is not installed), which propagates out of `download_video`. -/
inductive Attempt1Result where
  | success
  | calledProcessError
  | otherError (e : String)

/-- Outcome of the fallback `subprocess.run` (`src/main.py` lines
250-252): its `except Exception` catches everything, so the call either
succeeds or counts as a failure. -/
inductive Attempt2Result where
  | success
  | failure

/-- Behaviour of the external world during one `download_video` call.
`created1`/`created2` say whether the corresponding successful yt-dlp run
actually left a file at the output path (the source explicitly re-checks
`os.path.exists` because yt-dlp can report success without producing the
expected file). -/
structure DownloadEnv where
  attempt1 : Attempt1Result
  attempt2 : Attempt2Result
  created1 : Bool
  created2 : Bool

/-- Python `os.path.join(path, filename)` as used here: the program only ever
passes the default directory `'.'`, for which join is separator
concatenation. -/
def path_join (dir file : String) : String := dir ++ "/" ++ file

/-- Embeds `download_video` of `src/main.py` (lines 200-273): compute the
expected file path `os.path.join(path, video_id + ".mp4")`; try the
high-quality command; on `CalledProcessError` try the safe fallback,
returning `None` if it too fails; after either successful run, verify the
file exists and return `None` when it does not, the path otherwise.  A
non-`CalledProcessError` exception from the first run propagates
(`Except.error`).  The returned filesystem reflects any file the runs
created. -/
def download_video (env : DownloadEnv) (video_id path : String)
    (fs : List String) : Except String (Option String × List String) :=
  let filepath := path_join path (video_id ++ ".mp4")
  match env.attempt1 with
  | .success =>
    let fs1 := if env.created1 then fs.insert filepath else fs
    if filepath ∈ fs1 then Except.ok (some filepath, fs1) else Except.ok (none, fs1)
  | .calledProcessError =>
    match env.attempt2 with
    | .success =>
      let fs2 := if env.created2 then fs.insert filepath else fs
      if filepath ∈ fs2 then Except.ok (some filepath, fs2) else Except.ok (none, fs2)
    | .failure => Except.ok (none, fs)
  | .otherError e => Except.error e

/-- Embeds `download_video` of `src/yotuubeuploader.py` (lines 147-197): a single
yt-dlp invocation inside `try ... except Exception`, so every failure —
including the exceptions the current variant lets propagate — yields
`None`; on success the same existence check guards the returned path. -/
def legacy_download_video (env : DownloadEnv) (video_id path : String)
    (fs : List String) : Option String × List String :=
  let filepath := path_join path (video_id ++ ".mp4")
  match env.attempt1 with
  | .success =>
    let fs1 := if env.created1 then fs.insert filepath else fs
    if filepath ∈ fs1 then (some filepath, fs1) else (none, fs1)
  | _ => (none, fs)

/-- C4: resolving a preset yields a start whose weekday is the preset's
`start_day`, whose time-of-day is exactly `hour:minute` (seconds and
microseconds zero), and which is at or after `now`; and when the next
occurrence of `start_day` is today with `hour:minute` already passed, the
result is exactly seven days after today's occurrence. -/
theorem preset_start_weekday_time_and_future
    (start_day hour minute now : Nat)
    (hd : start_day < 7) (hh : hour < 24) (hm : minute < 60) :
    weekday (calculate_start_datetime_from_preset start_day hour minute now) = start_day ∧
    timeOfDay (calculate_start_datetime_from_preset start_day hour minute now) =
      hmMicros hour minute ∧
    now ≤ calculate_start_datetime_from_preset start_day hour minute now ∧
    (weekday now = start_day → hmMicros hour minute < timeOfDay now →
      calculate_start_datetime_from_preset start_day hour minute now =
        (now / usPerDay) * usPerDay + hmMicros hour minute + 7 * usPerDay) := by
  simp only [calculate_start_datetime_from_preset, weekday, timeOfDay, hmMicros, usPerDay]
  split <;> omega

/-- Witness for `preset_start_weekday_time_and_future`: the built-in default
preset (Sunday = 6, 09:00) resolved from a Sunday 10:00 instant. -/
theorem preset_start_weekday_time_and_future_witness :
    6 < 7 ∧ 9 < 24 ∧ 0 < 60 ∧
    (weekday (calculate_start_datetime_from_preset 6 9 0 554400000000) = 6 ∧
     timeOfDay (calculate_start_datetime_from_preset 6 9 0 554400000000) = hmMicros 9 0 ∧
     554400000000 ≤ calculate_start_datetime_from_preset 6 9 0 554400000000 ∧
     (weekday 554400000000 = 6 → hmMicros 9 0 < timeOfDay 554400000000 →
       calculate_start_datetime_from_preset 6 9 0 554400000000 =
         (554400000000 / usPerDay) * usPerDay + hmMicros 9 0 + 7 * usPerDay)) :=
  ⟨by decide, by decide, by decide,
    preset_start_weekday_time_and_future 6 9 0 554400000000
      (by decide) (by decide) (by decide)⟩

/-- Concrete schedule plan used by witnesses: Sunday 2024-01-07 09:00 as a
microsecond value with a 7-day interval. -/
def planScenarioA : SchedulePlan := ⟨1704618000000000, 604800000000⟩

/-- Oracle with an uneventful environment: download finds nothing, upload
reports failure, `os.remove` succeeds. -/
def quietOracle : MainJobOracle :=
  { download := CallOutcome.ret none, upload := CallOutcome.ret none, removeFails := false }

/-- C3: the publish timestamp for the job at zero-based index `i` is
`start_datetime + i * interval`; consecutive slots differ by exactly the
interval; a zero interval gives every slot the identical timestamp; and
every `upload_video` invocation the worker makes for job `i` carries
exactly this timestamp. -/
theorem slot_time_arithmetic (plan : SchedulePlan) (i : Nat)
    (o : MainJobOracle) (n : Nat) (job : Job) (fs : List String) :
    slotTime plan i = plan.start_datetime + (i : Int) * plan.interval ∧
    slotTime plan (i + 1) - slotTime plan i = plan.interval ∧
    (∀ start : Int, ∀ j : Nat, slotTime ⟨start, 0⟩ j = start) ∧
    (∀ c ∈ (process_one_job o plan n i job fs).calls, c.publish_at = slotTime plan i) := by
  refine ⟨rfl, ?_, ?_, ?_⟩
  · simp only [slotTime]
    push_cast
    ring
  · intro start j
    simp [slotTime]
  · intro c hc
    cases job with
    | reUpload sid t d =>
      simp only [process_one_job] at hc
      cases hdl : o.download with
      | raise e => simp [hdl] at hc
      | ret r =>
        cases r with
        | none => simp [hdl] at hc
        | some p =>
          by_cases hp : p = "" <;>
            simp only [hdl, hp, mainAfterSource, if_pos, if_neg, List.mem_singleton,
              reduceIte] at hc <;> simp_all
    | localJob sp t d =>
      simp only [process_one_job] at hc
      by_cases hp : sp = "" <;>
        simp only [hp, mainAfterSource, List.mem_singleton, reduceIte] at hc <;> simp_all

/-- Witness for `slot_time_arithmetic`: a local job at index 0 of a 1-job
batch; its single recorded `upload_video` call carries `slotTime plan 0`. -/
theorem slot_time_arithmetic_witness :
    slotTime planScenarioA 1 - slotTime planScenarioA 0 = planScenarioA.interval ∧
    ({ file_path := "a.mp4", title := "T", description := "D",
       tags := ["shorts", "your-custom-tag"],
       publish_at := slotTime planScenarioA 0 } : UploadCall).publish_at
        = slotTime planScenarioA 0 :=
  ⟨(slot_time_arithmetic planScenarioA 0 quietOracle 1 (Job.localJob "a.mp4" "T" "D") []).2.1,
   (slot_time_arithmetic planScenarioA 0 quietOracle 1 (Job.localJob "a.mp4" "T" "D") []).2.2.2
     _ (by decide)⟩

/-- C9: whatever the external world does, both `download_video` variants
return either no path or the exact path `os.path.join(path, video_id + ".mp4")`,
and when a path is returned the file exists at it at the moment of return. -/
theorem download_video_contract (env : DownloadEnv) (video_id path : String)
    (fs : List String) (p : String) (fs2 : List String) :
    (download_video env video_id path fs = Except.ok (some p, fs2) →
      p = path_join path (video_id ++ ".mp4") ∧ p ∈ fs2) ∧
    (legacy_download_video env video_id path fs = (some p, fs2) →
      p = path_join path (video_id ++ ".mp4") ∧ p ∈ fs2) := by
  obtain ⟨a1, a2, c1, c2⟩ := env
  constructor
  · intro h
    simp only [download_video] at h
    repeat' split at h
    all_goals try simp_all
    all_goals
      obtain ⟨hp, hfs⟩ := h
      subst hp
      subst hfs
      exact List.mem_insert_self _ _
  · intro h
    simp only [legacy_download_video] at h
    repeat' split at h
    all_goals try simp_all
    all_goals
      obtain ⟨hp, hfs⟩ := h
      subst hp
      subst hfs
      exact List.mem_insert_self _ _

/-- A download environment in which the first yt-dlp run succeeds and
creates the file. -/
def happyDownloadEnv : DownloadEnv :=
  { attempt1 := Attempt1Result.success, attempt2 := Attempt2Result.success,
    created1 := true, created2 := true }

/-- Witness for `download_video_contract`: a successful download of video
`abc` into `.` returns `./abc.mp4`, which exists. -/
theorem download_video_contract_witness :
    download_video happyDownloadEnv "abc" "." [] = Except.ok (some "./abc.mp4", ["./abc.mp4"]) ∧
    ("./abc.mp4" = path_join "." ("abc" ++ ".mp4") ∧ "./abc.mp4" ∈ ["./abc.mp4"]) :=
  ⟨rfl,
   (download_video_contract happyDownloadEnv "abc" "." [] "./abc.mp4" ["./abc.mp4"]).1 rfl⟩

/-- C7 counterexample: when the caller's tag list already contains
`"YTUPLOADER"` twice, `upload_video` of `src/main.py` leaves both copies
in place, so the final tag set does not contain the provenance tag exactly
once and a duplicate of it is present. -/
theorem provenance_tag_duplicate_counterexample :
    (upload_video_final_tags ["YTUPLOADER", "YTUPLOADER"]).count "YTUPLOADER" = 2 := by decide

/-- C7 amended: in `src/main.py` the final tag list always contains
`"YTUPLOADER"`, and its multiplicity is `max 1` (the caller's
multiplicity) — the tag is appended exactly once when absent and the list
is left untouched when present, so it occurs exactly once whenever the
caller includes it at most once; the legacy `upload_video` sends the
caller's tags verbatim and adds no provenance tag at all. -/
theorem provenance_tag_multiplicity (tags : List String) :
    "YTUPLOADER" ∈ upload_video_final_tags tags ∧
    (upload_video_final_tags tags).count "YTUPLOADER" = max 1 (tags.count "YTUPLOADER") ∧
    legacy_upload_tags tags = tags := by
  refine ⟨?_, ?_, rfl⟩
  · unfold upload_video_final_tags
    by_cases h : "YTUPLOADER" ∈ tags
    · rw [if_pos h]; exact h
    · rw [if_neg h]; simp
  · unfold upload_video_final_tags
    by_cases h : "YTUPLOADER" ∈ tags
    · rw [if_pos h]
      have hpos : 0 < tags.count "YTUPLOADER" := List.count_pos_iff.mpr h
      omega
    · rw [if_neg h]
      have hz : tags.count "YTUPLOADER" = 0 := List.count_eq_zero.mpr h
      rw [List.count_append, hz]
      simp

/-- String take length: `(s.take n).length = min n s.length`, lifted from the list level. -/
theorem string_length_take (s : String) (n : Nat) : (s.take n).length = min n s.length := by
  rw [String.take_eq]
  show (s.1.take n).length = min n s.1.length
  exact List.length_take ..

/-- A legacy-variant oracle in which the download finds nothing, the
upload reports failure and `os.remove` succeeds. -/
def quietLegacyOracle : LegacyJobOracle :=
  { download := none, upload := CallOutcome.ret none, removeRaises := false }

/-- An 85-character title padded so that it already ends in
`"... (Re-upload)"`, exactly 100 characters in total. -/
def fixed_point_title : String := String.mk (List.replicate 85 'a') ++ "... (Re-upload)"

set_option maxRecDepth 10000 in
/-- C10 counterexample: the claim that the user-entered title is never
uploaded verbatim fails.  For this 100-character title already ending in
`"... (Re-upload)"`, the legacy transformation (truncate to 85 characters,
add `"..."`, add the suffix) reproduces the input exactly, so the job's
single recorded `upload_video` invocation carries the user's title
unchanged. -/
theorem legacy_title_verbatim_counterexample :
    ((legacy_process_one_job quietLegacyOracle planScenarioA 1 0
        (Job.localJob "f.mp4" fixed_point_title "D") []).calls.map
      (fun c => c.title)) = [fixed_point_title] := by decide

/-- C10 amended: in the legacy worker, every `upload_video` invocation
carries `legacy_new_title` of the job's title (for local jobs as well as
re-upload jobs); that transformation appends `" (Re-upload)"`, truncating
the base with a trailing `"..."` exactly when the title exceeds 88
characters, and its result never exceeds 100 characters — but it is not
always different from the input (see the counterexample). -/
theorem legacy_title_transform (o : LegacyJobOracle) (plan : SchedulePlan)
    (n i : Nat) (job : Job) (fs : List String) :
    (∀ c ∈ (legacy_process_one_job o plan n i job fs).calls,
      c.title = legacy_new_title job.title) ∧
    (∀ t : String, (legacy_new_title t).length ≤ 100) ∧
    (∀ t : String, t.length ≤ 88 → legacy_new_title t = t ++ " (Re-upload)") ∧
    (∀ t : String, 88 < t.length →
      legacy_new_title t = t.take 85 ++ "..." ++ " (Re-upload)") := by
  have hsuf : (" (Re-upload)" : String).length = 12 := rfl
  have hdots : ("..." : String).length = 3 := rfl
  obtain ⟨dl, up, rr⟩ := o
  refine ⟨?_, ?_, ?_, ?_⟩
  · intro c hc
    cases job with
    | reUpload sid t d =>
      cases dl with
      | none => simp [legacy_process_one_job] at hc
      | some p =>
        by_cases hp : p = ""
        · simp [legacy_process_one_job, hp] at hc
        · simp only [legacy_process_one_job, hp, reduceIte, legacyAfterSource] at hc
          cases up <;> repeat' split at hc
          all_goals simp_all [Job.title]
    | localJob sp t d =>
      by_cases hp : sp = ""
      · simp [legacy_process_one_job, hp] at hc
      · simp only [legacy_process_one_job, hp, reduceIte, legacyAfterSource] at hc
        cases up <;> repeat' split at hc
        all_goals simp_all [Job.title]
  · intro t
    simp only [legacy_new_title, hsuf]
    by_cases h : 100 - 12 < t.length
    · rw [if_pos h, String.length_append, String.length_append,
        string_length_take, hdots, hsuf]
      omega
    · rw [if_neg h, String.length_append, hsuf]
      omega
  · intro t ht
    simp only [legacy_new_title, hsuf]
    rw [if_neg (by omega)]
  · intro t ht
    simp only [legacy_new_title, hsuf]
    rw [if_pos (by omega)]

/-- Witness for `legacy_title_transform`: a short title gains the suffix. -/
theorem legacy_title_transform_witness :
    ("Hi" : String).length ≤ 88 ∧ legacy_new_title "Hi" = "Hi" ++ " (Re-upload)" :=
  ⟨by decide,
   (legacy_title_transform quietLegacyOracle planScenarioA 1 0
       (Job.localJob "f.mp4" "Hi" "D") []).2.2.1 "Hi" (by decide)⟩

/-- C1 amended (positive part): in the current worker every job body is
entered — one job's failure of any kind never prevents a later job from
being attempted — and the loop always runs to the end of the list, after
which the terminal `UPLOAD_COMPLETE` message is emitted.  This holds for
every behaviour of the external world (download returning no source,
upload failure, and uncaught exceptions from either call). -/
theorem main_worker_runs_to_end (os : Nat → MainJobOracle) (plan : SchedulePlan)
    (jobs : List Job) (fs : List String) :
    (worker_upload_videos os plan jobs fs).processed = jobs.length ∧
    BatchEvent.uploadComplete ∈ (worker_upload_videos os plan jobs fs).events := by
  constructor
  · have key : ∀ (l : List Job) (i : Nat) (fsa : List String),
        (run_jobs os plan jobs.length l i fsa).processed = l.length := by
      intro l
      induction l with
      | nil => intro i fsa; rfl
      | cons j rest ih =>
        intro i fsa
        simp [run_jobs, ih]
    simpa [worker_upload_videos] using key jobs 0 fs
  · simp [worker_upload_videos]

/-- A legacy-variant environment whose upload call raises an exception the
legacy `upload_video` does not catch (it only catches `HttpError` — e.g. a
`FileNotFoundError` from `MediaFileUpload`). -/
def abortingOracle : Nat → LegacyJobOracle := fun _ =>
  { download := some "v2.mp4", upload := CallOutcome.raise "FileNotFoundError",
    removeRaises := false }

/-- C1 counterexample: in the legacy worker an unexpected exception during
job 1 (here: an upload-side exception that is not an `HttpError`) is NOT
caught at a per-job boundary — the loop aborts, the second job's body is
never entered (`processed = 1` of 2) and the terminal `UPLOAD_COMPLETE` is
never emitted. -/
theorem legacy_batch_abort_counterexample :
    (legacy_worker_upload_videos abortingOracle planScenarioA
        [Job.localJob "a.mp4" "A" "D", Job.reUpload "vid2" "B" "D"] []).processed = 1 ∧
    BatchEvent.uploadComplete ∉
      (legacy_worker_upload_videos abortingOracle planScenarioA
        [Job.localJob "a.mp4" "A" "D", Job.reUpload "vid2" "B" "D"] []).events := by
  decide

/-- C2 amended (positive part): in the current worker, for every re-upload
job whose download returned a (non-empty) path, the `finally` cleanup runs
on every exit path; whenever `os.remove` itself does not fail, the file is
gone from the filesystem at the end of that job's processing — whether the
upload succeeded, returned failure, or raised. -/
theorem main_cleanup_on_every_exit_path (o : MainJobOracle) (plan : SchedulePlan)
    (n i : Nat) (sid t d p : String) (fs : List String)
    (hdl : o.download = CallOutcome.ret (some p)) (hp : p ≠ "")
    (hrm : o.removeFails = false) :
    p ∉ (process_one_job o plan n i (Job.reUpload sid t d) fs).fs := by
  simp only [process_one_job, hdl]
  rw [if_neg hp]
  simp [mainAfterSource, hrm, hp, List.mem_insert_self, List.mem_filter]

/-- An environment in which the download succeeds and the subsequent
upload raises an uncaught exception. -/
def raisingUploadOracle : MainJobOracle :=
  { download := CallOutcome.ret (some "x.mp4"), upload := CallOutcome.raise "boom",
    removeFails := false }

/-- Witness for `main_cleanup_on_every_exit_path`: even when the upload
raises, the downloaded file is deleted by the end of the job. -/
theorem main_cleanup_on_every_exit_path_witness :
    raisingUploadOracle.download = CallOutcome.ret (some "x.mp4") ∧
    "x.mp4" ≠ "" ∧ raisingUploadOracle.removeFails = false ∧
    "x.mp4" ∉ (process_one_job raisingUploadOracle planScenarioA 1 0
        (Job.reUpload "v" "T" "D") []).fs :=
  ⟨rfl, by decide, rfl,
   main_cleanup_on_every_exit_path raisingUploadOracle planScenarioA 1 0 "v" "T" "D"
     "x.mp4" [] rfl (by decide) rfl⟩

/-- A legacy-variant environment: download succeeds, upload raises an
exception that is not an `HttpError` (e.g. a transport-level error). -/
def legacyRaisingOracle : Nat → LegacyJobOracle := fun _ =>
  { download := some "v1.mp4", upload := CallOutcome.raise "SSLError",
    removeRaises := false }

/-- C2 counterexample: in the legacy worker there is no `finally` — when
the upload raises after a successful download, the cleanup statement is
never reached and the downloaded temporary file is still present in the
final filesystem. -/
theorem legacy_leaked_temp_file_counterexample :
    "v1.mp4" ∈ (legacy_worker_upload_videos legacyRaisingOracle planScenarioA
        [Job.reUpload "v1" "T" "D"] []).fs := by decide

/-- C5 amended: in the current worker the `PROGRESS_UPDATE` for index `i`
is emitted after every job whose source resolution produced a truthy path
(upload success, upload failure and caught-exception paths alike) and even
after a download that raised; but a job taking the
`if not video_path: ... continue` path — download returning `None` (or an
empty path, or a local job with an empty source path) — emits NO progress
message at all, because `continue` jumps past the progress statement. -/
theorem progress_update_emission (o : MainJobOracle) (plan : SchedulePlan)
    (n i : Nat) (sid spath t d : String) (fs : List String) :
    (∀ p : String, o.download = CallOutcome.ret (some p) → p ≠ "" →
       BatchEvent.progressUpdate (progressValue n i) ∈
         (process_one_job o plan n i (Job.reUpload sid t d) fs).events) ∧
    (∀ e : String, o.download = CallOutcome.raise e →
       BatchEvent.progressUpdate (progressValue n i) ∈
         (process_one_job o plan n i (Job.reUpload sid t d) fs).events) ∧
    (o.download = CallOutcome.ret none →
       ∀ q : ℚ, BatchEvent.progressUpdate q ∉
         (process_one_job o plan n i (Job.reUpload sid t d) fs).events) ∧
    (spath ≠ "" →
       BatchEvent.progressUpdate (progressValue n i) ∈
         (process_one_job o plan n i (Job.localJob spath t d) fs).events) ∧
    (∀ q : ℚ, BatchEvent.progressUpdate q ∉
       (process_one_job o plan n i (Job.localJob "" t d) fs).events) := by
  refine ⟨?_, ?_, ?_, ?_, ?_⟩
  · intro p hdl hp
    simp only [process_one_job, hdl]
    rw [if_neg hp]
    simp [mainAfterSource]
  · intro e hdl
    simp [process_one_job, hdl]
  · intro hdl q
    simp [process_one_job, hdl]
  · intro hp
    simp only [process_one_job]
    rw [if_neg hp]
    simp [mainAfterSource]
  · intro q
    simp [process_one_job]

/-- An environment in which the download succeeds and the upload succeeds
with remote id `vid123`. -/
def goodRunOracle : MainJobOracle :=
  { download := CallOutcome.ret (some "y.mp4"), upload := CallOutcome.ret (some "vid123"),
    removeFails := false }

/-- Witness for `progress_update_emission`: a job whose download produced
`y.mp4` gets its progress message. -/
theorem progress_update_emission_witness :
    goodRunOracle.download = CallOutcome.ret (some "y.mp4") ∧ "y.mp4" ≠ "" ∧
    BatchEvent.progressUpdate (progressValue 1 0) ∈
      (process_one_job goodRunOracle planScenarioA 1 0 (Job.reUpload "v" "T" "D") []).events :=
  ⟨rfl, by decide,
   (progress_update_emission goodRunOracle planScenarioA 1 0 "v" "" "T" "D" []).1
     "y.mp4" rfl (by decide)⟩

/-- An environment in which the download finds no source at all. -/
def skipOracle : Nat → MainJobOracle := fun _ =>
  { download := CallOutcome.ret none, upload := CallOutcome.ret none, removeFails := false }

/-- C5 counterexample: a 1-job batch whose download returns no source.
The claim says `ProgressUpdate(100 * (0+1) / 1)` is emitted after the
skipped job; in fact the `continue` skips the progress statement and no
such message is ever placed on the queue. -/
theorem skipped_job_no_progress_counterexample :
    BatchEvent.progressUpdate (progressValue 1 0) ∉
      (worker_upload_videos skipOracle planScenarioA [Job.reUpload "v" "T" "D"] []).events := by
  have hv : progressValue 1 0 = 100 := by norm_num [progressValue]
  rw [hv]
  norm_num [worker_upload_videos, run_jobs, process_one_job, skipOracle]
  exact ⟨fun h => BatchEvent.noConfusion h, fun h => BatchEvent.noConfusion h,
    fun h => BatchEvent.noConfusion h⟩

/-- C6 amended (positive part): in the current worker, the summary is
handed to the Discord sink exactly when at least one job completed
successfully, the terminal `UPLOAD_COMPLETE` is always emitted, and the
summary contains, for every success, the line with its title and watch URL
`https://www.youtube.com/watch?v=<remote id>`. -/
theorem main_summary_iff_success (os : Nat → MainJobOracle)
    (plan : SchedulePlan) (jobs : List Job) (fs : List String) :
    ((worker_upload_videos os plan jobs fs).notification = none ↔
       (worker_upload_videos os plan jobs fs).successes = []) ∧
    BatchEvent.uploadComplete ∈ (worker_upload_videos os plan jobs fs).events ∧
    (∀ s ∈ (worker_upload_videos os plan jobs fs).successes,
       ("- [" ++ s.1 ++ "](https://www.youtube.com/watch?v=" ++ s.2 ++ ")") ∈
         discordLines (worker_upload_videos os plan jobs fs).successes) := by
  refine ⟨?_, ?_, ?_⟩
  · simp only [worker_upload_videos]
    by_cases h : (run_jobs os plan jobs.length jobs 0 fs).successes = [] <;> simp [h]
  · simp [worker_upload_videos]
  · intro s hs
    simp only [discordLines, List.mem_append, List.mem_map]
    right
    exact ⟨s, hs, rfl⟩

/-- An environment family for a batch whose (single) job uploads
successfully with remote id `vid123`. -/
def successOracle : Nat → MainJobOracle := fun _ => goodRunOracle

/-- Witness for `main_summary_iff_success`: the one success of a 1-job
batch contributes its title-plus-watch-URL line to the summary. -/
theorem main_summary_iff_success_witness :
    ("T", "vid123") ∈ (worker_upload_videos successOracle planScenarioA
        [Job.localJob "f.mp4" "T" "D"] []).successes ∧
    ("- [" ++ "T" ++ "](https://www.youtube.com/watch?v=" ++ "vid123" ++ ")") ∈
      discordLines (worker_upload_videos successOracle planScenarioA
        [Job.localJob "f.mp4" "T" "D"] []).successes :=
  ⟨by decide,
   (main_summary_iff_success successOracle planScenarioA
       [Job.localJob "f.mp4" "T" "D"] []).2.2 ("T", "vid123") (by decide)⟩

/-- A legacy-variant environment whose (single) upload succeeds with
remote id `abc123`. -/
def legacySuccessOracle : Nat → LegacyJobOracle := fun _ =>
  { download := none, upload := CallOutcome.ret (some "abc123"), removeRaises := false }

/-- C6 counterexample: in the legacy worker a batch completes with a
successful upload (the provider returned id `abc123` and the terminal
`UPLOAD_COMPLETE` is emitted), yet no summary is ever handed to a
notification sink — the legacy file contains no such call — refuting the
"if at least one job succeeded, the summary is handed over" half of the
claim. -/
theorem legacy_no_summary_counterexample :
    BatchEvent.uploadComplete ∈ (legacy_worker_upload_videos legacySuccessOracle planScenarioA
        [Job.localJob "f.mp4" "T" "D"] []).events ∧
    (legacy_worker_upload_videos legacySuccessOracle planScenarioA
        [Job.localJob "f.mp4" "T" "D"] []).notification = none := by
  decide

/-- A local job leaves the filesystem untouched in the current worker: no
download occurs, and the `finally` cleanup is guarded by
`job['type'] == 're-upload'`. -/
theorem process_one_job_local_fs (o : MainJobOracle) (plan : SchedulePlan)
    (n i : Nat) (job : Job) (fs : List String) (h : job.isLocal = true) :
    (process_one_job o plan n i job fs).fs = fs := by
  cases job with
  | reUpload sid t d => simp [Job.isLocal] at h
  | localJob sp t d =>
    by_cases hp : sp = "" <;> simp [process_one_job, mainAfterSource, hp]

/-- A local job leaves the filesystem untouched in the legacy worker as
well — even when its upload raises, nothing was downloaded and the guarded
cleanup does not fire. -/
theorem legacy_process_one_job_local_fs (o : LegacyJobOracle) (plan : SchedulePlan)
    (n i : Nat) (job : Job) (fs : List String) (h : job.isLocal = true) :
    (legacy_process_one_job o plan n i job fs).fs = fs := by
  obtain ⟨dl, up, rr⟩ := o
  cases job with
  | reUpload sid t d => simp [Job.isLocal] at h
  | localJob sp t d =>
    by_cases hp : sp = "" <;> cases up <;> simp [legacy_process_one_job, legacyAfterSource, hp]

/-- The current worker's loop over a list of local jobs preserves the
filesystem. -/
theorem run_jobs_local_fs (os : Nat → MainJobOracle) (plan : SchedulePlan) (n : Nat) :
    ∀ (l : List Job) (i : Nat) (fs : List String), (∀ j ∈ l, j.isLocal = true) →
      (run_jobs os plan n l i fs).fs = fs := by
  intro l
  induction l with
  | nil => intro i fs h; rfl
  | cons j rest ih =>
    intro i fs h
    have hj : j.isLocal = true := h j (List.mem_cons_self j rest)
    have hr : ∀ x ∈ rest, x.isLocal = true := fun x hx => h x (List.mem_cons_of_mem j hx)
    simp only [run_jobs]
    rw [process_one_job_local_fs _ _ _ _ _ _ hj]
    exact ih (i + 1) fs hr

/-- The legacy worker's loop over a list of local jobs preserves the
filesystem, whether or not it runs to completion. -/
theorem legacy_run_jobs_local_fs (os : Nat → LegacyJobOracle) (plan : SchedulePlan) (n : Nat) :
    ∀ (l : List Job) (i : Nat) (fs : List String), (∀ j ∈ l, j.isLocal = true) →
      (legacy_run_jobs os plan n l i fs).2.2.1 = fs := by
  intro l
  induction l with
  | nil => intro i fs h; rfl
  | cons j rest ih =>
    intro i fs h
    have hj : j.isLocal = true := h j (List.mem_cons_self j rest)
    have hr : ∀ x ∈ rest, x.isLocal = true := fun x hx => h x (List.mem_cons_of_mem j hx)
    simp only [legacy_run_jobs]
    by_cases hraised : (legacy_process_one_job (os i) plan n i j fs).raised
    · simp only [hraised, reduceIte]
      exact legacy_process_one_job_local_fs _ _ _ _ _ _ hj
    · simp only [hraised, reduceIte]
      rw [legacy_process_one_job_local_fs _ _ _ _ _ _ hj]
      exact ih (i + 1) fs hr

/-- C8: a batch consisting purely of local jobs never deletes any file: in
both workers the final filesystem is exactly the initial one, for every
behaviour of the external world (success, provider failure, uncaught
exception) — only files obtained for re-upload jobs are ever removed. -/
theorem local_batch_never_deletes (os : Nat → MainJobOracle) (los : Nat → LegacyJobOracle)
    (plan : SchedulePlan) (jobs : List Job) (fs : List String)
    (h : ∀ j ∈ jobs, j.isLocal = true) :
    (worker_upload_videos os plan jobs fs).fs = fs ∧
    (legacy_worker_upload_videos los plan jobs fs).fs = fs := by
  constructor
  · simpa [worker_upload_videos] using run_jobs_local_fs os plan jobs.length jobs 0 fs h
  · simpa [legacy_worker_upload_videos] using
      legacy_run_jobs_local_fs los plan jobs.length jobs 0 fs h

/-- Witness for `local_batch_never_deletes`: a 1-job local batch with the
input file present leaves it present in both workers. -/
theorem local_batch_never_deletes_witness :
    (∀ j ∈ [Job.localJob "f.mp4" "T" "D"], j.isLocal = true) ∧
    (worker_upload_videos skipOracle planScenarioA
        [Job.localJob "f.mp4" "T" "D"] ["f.mp4"]).fs = ["f.mp4"] ∧
    (legacy_worker_upload_videos legacySuccessOracle planScenarioA
        [Job.localJob "f.mp4" "T" "D"] ["f.mp4"]).fs = ["f.mp4"] :=
  ⟨by decide,
   (local_batch_never_deletes skipOracle legacySuccessOracle planScenarioA
       [Job.localJob "f.mp4" "T" "D"] ["f.mp4"] (by decide)).1,
   (local_batch_never_deletes skipOracle legacySuccessOracle planScenarioA
       [Job.localJob "f.mp4" "T" "D"] ["f.mp4"] (by decide)).2⟩
